import Mathlib

set_option linter.unusedVariables false

/-!
Shallow embedding of the adaptive interview engine in
`Backend/services/temp.py`: the turn orchestrator `chat_with_founder` and the
extraction analyzer `analyze_and_extract`.

The external reasoning service is modelled as an explicit parameter of each
operation: `Option String` for the reply-generation call (`none` stands for a
raised exception, an invalid response object, or text that is empty after
stripping) and `Option ExtractionResult` for the structured extraction call
(`none` stands for a raised exception, an empty response, or a JSON parse
failure).  Python dicts over string keys are modelled as association lists in
insertion order with `dictInsert` implementing `d[k] = v` (update in place when
the key is present, append otherwise).
-/

/-- One entry of the `issues` catalog (an issue dict in the source). -/
structure Issue where
  field : String
  question : String
  category : String
  importance : Nat
  status : String
deriving DecidableEq, Repr

/-- One extracted answer: the `{"value": ..., "confidence": ...}` dicts the
structured extraction call proposes and `gathered_info` stores. -/
structure ExtractData where
  value : String
  confidence : String
deriving DecidableEq, Repr

/-- One transcript entry: `{"role": ..., "message": ...}`. -/
structure ChatMsg where
  role : String
  message : String
deriving DecidableEq, Repr

/-- `gathered_info` is a Python dict field name → extracted answer, modelled as
an association list in insertion order. -/
abbrev GatheredInfo := List (String × ExtractData)

/-- Keys of a dict, in insertion order (`d.keys()`). -/
def dictKeys (d : GatheredInfo) : List String :=
  d.map Prod.fst

/-- Lookup of a key in a dict (`d[k]` / `d.get(k)`). -/
def dictLookup (d : GatheredInfo) (k : String) : Option ExtractData :=
  List.lookup k d

/-- Python dict assignment `d[k] = v`: when `k` is already a key the stored
value is replaced in place, otherwise the pair is appended at the end. -/
def dictInsert (d : GatheredInfo) (k : String) (v : ExtractData) : GatheredInfo :=
  if (dictKeys d).contains k then
    d.map (fun p => if p.1 = k then (k, v) else p)
  else
    d ++ [(k, v)]

/-- The parsed structured result of the extraction call: the `extracted` dict
as an association list of field → proposal, plus the `cannot_answer` list. -/
structure ExtractionResult where
  extracted : List (String × ExtractData)
  cannot_answer : List String
deriving DecidableEq, Repr

/-- The dict returned by `analyze_and_extract`. -/
structure AnalyzeResult where
  is_complete : Bool
  gathered_info : GatheredInfo
  still_pending : List String
  cannot_answer_fields : List String
deriving DecidableEq, Repr

/-- The acceptance condition of line 282: the proposed field is a valid issue
field and the proposal's confidence is high or medium. -/
def acceptedProposal (all_issue_fields : List String) (p : String × ExtractData) : Prop :=
  all_issue_fields.contains p.1 ∧ (p.2.confidence = "high" ∨ p.2.confidence = "medium")

instance (all_issue_fields : List String) (p : String × ExtractData) :
    Decidable (acceptedProposal all_issue_fields p) := by
  unfold acceptedProposal
  infer_instance

/-- The merge loop of `analyze_and_extract` (lines 279-283): starting from a
copy of `gathered_info`, each proposed extraction is written into the dict iff
its field is an issue field and its confidence is high or medium. -/
def mergeExtracted (all_issue_fields : List String) (gathered_info : GatheredInfo)
    (extracted : List (String × ExtractData)) : GatheredInfo :=
  extracted.foldl
    (fun merged fd =>
      if acceptedProposal all_issue_fields fd then dictInsert merged fd.1 fd.2
      else merged)
    gathered_info

/-- The try-body of `analyze_and_extract` after a successfully parsed
structured response (lines 276-308): the merge loop, the catalog filter on this
turn's `cannot_answer`, the completion arithmetic and the returned dict. -/
def analyzeSuccess (issues : List Issue) (gathered_info : GatheredInfo)
    (existing_cannot_answer : List String) (result : ExtractionResult) : AnalyzeResult :=
  let all_issue_fields := issues.map Issue.field
  let merged := mergeExtracted all_issue_fields gathered_info result.extracted
  let new_cannot_answer := result.cannot_answer.filter
    (fun f => all_issue_fields.contains f)
  let gathered_count :=
    ((dictKeys merged).filter (fun f => all_issue_fields.contains f)).length
  let total_cannot_answer := (existing_cannot_answer ++ new_cannot_answer).dedup.length
  let total_attempted := gathered_count + total_cannot_answer
  let total_issues := all_issue_fields.length
  { is_complete := decide (total_issues ≤ total_attempted)
    gathered_info := merged
    still_pending := all_issue_fields.filter
      (fun f => !(dictKeys merged).contains f && !existing_cannot_answer.contains f)
    cannot_answer_fields := new_cannot_answer }

/-- `analyze_and_extract(issues, gathered_info, existing_cannot_answer,
chat_history)` from the source, with the reasoning-service outcome passed
explicitly.  Mirrors: the fewer-than-2 participant messages early return, the
`fields_needed` selection, the success path (`analyzeSuccess`), and the two
exception handlers (both collapse to the `none` branch). -/
def analyze_and_extract (issues : List Issue) (gathered_info : GatheredInfo)
    (existing_cannot_answer : List String) (chat_history : List ChatMsg)
    (extraction : Option ExtractionResult) : AnalyzeResult :=
  let user_messages := chat_history.filter (fun m => m.role == "user")
  if user_messages.length < 2 then
    { is_complete := false
      gathered_info := gathered_info
      still_pending := issues.map Issue.field
      cannot_answer_fields := [] }
  else
    let fields_needed := issues.filter (fun i => !(dictKeys gathered_info).contains i.field)
    match extraction with
    | none =>
        { is_complete := false
          gathered_info := gathered_info
          still_pending := fields_needed.map Issue.field
          cannot_answer_fields := [] }
    | some result => analyzeSuccess issues gathered_info existing_cannot_answer result

/-- `still_needed` as computed in `chat_with_founder` (lines 30-46): issues
whose field is in neither `gathered_issue_fields` (gathered keys restricted to
issue fields) nor `cannot_answer_fields`, in catalog order. -/
def still_needed_of (issues : List Issue) (gathered_info : GatheredInfo)
    (cannot_answer_fields : List String) : List Issue :=
  let all_issue_fields := issues.map Issue.field
  let gathered_issue_fields :=
    (dictKeys gathered_info).filter (fun f => all_issue_fields.contains f)
  issues.filter (fun i =>
    !gathered_issue_fields.contains i.field && !cannot_answer_fields.contains i.field)

/-- `next_questions` (line 52): the questions of the first at most 3
`still_needed` entries. -/
def next_questions_of (issues : List Issue) (gathered_info : GatheredInfo)
    (cannot_answer_fields : List String) : List String :=
  ((still_needed_of issues gathered_info cannot_answer_fields).take 3).map Issue.question

/-- Python `s.endswith(suffix)`: suffix test on the character sequence. -/
def pyEndsWith (s suffix : String) : Bool :=
  suffix.data.isSuffixOf s.data

/-- Python `c in s` for a one-character needle: character membership. -/
def pyContains (s : String) (c : Char) : Bool :=
  s.data.contains c

/-- Python `s[:-1]`: the string without its last character. -/
def pyDropLast (s : String) : String :=
  String.mk s.data.dropLast

/-- Python `s.strip()`: the string without leading and trailing whitespace. -/
def pyStrip (s : String) : String :=
  String.mk (((s.data.dropWhile Char.isWhitespace).reverse.dropWhile
    Char.isWhitespace).reverse)

/-- The question-mark post-processing of lines 146-152, applied to the stripped
generated text in continuation mode only. -/
def enforceQuestion (s : String) : String :=
  if pyEndsWith s "?" then s
  else if !(pyEndsWith s "?" || pyEndsWith s "!" || pyEndsWith s ".") then s ++ "?"
  else if pyEndsWith s "." then
    if pyContains s '?' then s else pyDropLast s ++ "?"
  else s

/-- The closing-mode fallback message of line 157. -/
def closingFallback (founder_name company_name : String) : String :=
  "Thank you so much for your time, " ++ founder_name ++
    "! We\x27ve gathered excellent insights about " ++ company_name ++
    ". I\x27ll update our investment memo and get back to you within 2-3 weeks with our feedback. Best of luck with everything!"

/-- The continuation-mode fallback message of lines 159-160: a fixed
acknowledgment followed by the highest-priority still-needed question, or a
generic prompt when none remain. -/
def continuationFallback (still_needed : List Issue) : String :=
  "Thanks for sharing! " ++
    (match still_needed with
     | [] => "What else can you tell me?"
     | q :: _ => q.question)

/-- The interview_data dict consumed by `chat_with_founder` (lines 22-27). -/
structure InterviewData where
  company_name : String
  sector : String
  founder_name : String
  issues : List Issue
  gathered_info : GatheredInfo
  cannot_answer_fields : List String
deriving DecidableEq, Repr

/-- The dict returned by `chat_with_founder`. -/
structure ChatResult where
  message : String
  is_complete : Bool
  gathered_info : GatheredInfo
  cannot_answer_fields : List String
deriving DecidableEq, Repr

/-- `chat_with_founder(interview_data, user_message, chat_history)` from the
source, with both reasoning-service outcomes passed explicitly.  Mirrors: the
`still_needed` selection, the closing-mode decision (line 61), the stripping
and question-mark post-processing of a successful generated reply, the two
fallback messages of the exception handler, the call to `analyze_and_extract`
on the transcript extended by this turn's two messages, and the shape of the
returned dict. -/
def chat_with_founder (d : InterviewData) (user_message : String)
    (chat_history : List ChatMsg) (genResponse : Option String)
    (extraction : Option ExtractionResult) : ChatResult :=
  let still_needed := still_needed_of d.issues d.gathered_info d.cannot_answer_fields
  let will_be_closing := decide (still_needed.length ≤ 0)
  let fallback :=
    if will_be_closing then closingFallback d.founder_name d.company_name
    else continuationFallback still_needed
  let ai_message :=
    match genResponse with
    | none => fallback
    | some raw =>
        let t := pyStrip raw
        if t = "" then fallback
        else if will_be_closing then t
        else enforceQuestion t
  let completion_check :=
    analyze_and_extract d.issues d.gathered_info d.cannot_answer_fields
      (chat_history ++ [{ role := "user", message := user_message },
                        { role := "assistant", message := ai_message }])
      extraction
  { message := ai_message
    is_complete := completion_check.is_complete
    gathered_info := completion_check.gathered_info
    cannot_answer_fields := completion_check.cannot_answer_fields }

/-- The completion measure in the words of the specification: the number of
distinct catalog fields covered by the union of the gathered keys and the
cannot-answer fields, both restricted to catalog fields, each field counted at
most once.  Stated for comparison with the arithmetic the code performs. -/
def specCoveredCount (issues : List Issue) (gathered_info : GatheredInfo)
    (cannot_answer_fields : List String) : Nat :=
  let fields := issues.map Issue.field
  (((dictKeys gathered_info).filter (fun f => fields.contains f) ++
      cannot_answer_fields.filter (fun f => fields.contains f)).dedup).length

/-! Concrete fixtures used by counterexamples and witnesses. -/

/-- A two-issue catalog. -/
def exIssues : List Issue :=
  [{ field := "revenue", question := "What is your current annual revenue?",
     category := "financials", importance := 1, status := "open" },
   { field := "team_size", question := "How big is your team?",
     category := "team", importance := 2, status := "open" }]

/-- A gathered_info dict already holding an answer for `revenue`. -/
def exGatheredRevenue : GatheredInfo :=
  [("revenue", { value := "2M ARR", confidence := "high" })]

/-- A transcript with two participant messages. -/
def exHistory : List ChatMsg :=
  [{ role := "user", message := "hi" },
   { role := "assistant", message := "hello, what is your revenue?" },
   { role := "user", message := "we make 2M ARR" }]

/-- A transcript with a single participant message. -/
def exShortHistory : List ChatMsg :=
  [{ role := "user", message := "hi" }]

/-- A fresh interview: nothing gathered, nothing marked unanswerable. -/
def exData : InterviewData :=
  { company_name := "Acme", sector := "fintech", founder_name := "Sam",
    issues := exIssues, gathered_info := [], cannot_answer_fields := [] }

/-- An interview in which every catalog field has been attempted. -/
def exDataDone : InterviewData :=
  { company_name := "Acme", sector := "fintech", founder_name := "Sam",
    issues := exIssues, gathered_info := exGatheredRevenue,
    cannot_answer_fields := ["team_size"] }

/-- A structured extraction result proposing nothing. -/
def exEmptyResult : ExtractionResult :=
  { extracted := [], cannot_answer := [] }

/-- A structured extraction result re-proposing `revenue` with a new value at
high confidence. -/
def exOverwriteResult : ExtractionResult :=
  { extracted := [("revenue", { value := "3M ARR", confidence := "high" })],
    cannot_answer := [] }

/-- A structured extraction result with a high-confidence answer for
`team_size`. -/
def exTeamResult : ExtractionResult :=
  { extracted := [("team_size", { value := "12 people", confidence := "high" })],
    cannot_answer := [] }

/-- A structured extraction result whose proposals are all rejectable: a
low-confidence proposal for a catalog field and a high-confidence proposal for
a field outside the catalog. -/
def exRejectableResult : ExtractionResult :=
  { extracted := [("team_size", { value := "maybe ten", confidence := "low" }),
                  ("valuation", { value := "40M", confidence := "high" })],
    cannot_answer := [] }

/-- A structured extraction result declaring one catalog field and one
non-catalog field as cannot-answer. -/
def exCannotResult : ExtractionResult :=
  { extracted := [], cannot_answer := ["team_size", "funding_stage"] }

/-! Helper lemmas: strings. -/

theorem string_append_ne_empty_left (s t : String) (h : s ≠ "") : s ++ t ≠ "" := by
  intro hc
  apply h
  apply String.ext
  have hd : s.data ++ t.data = [] := by
    have h2 := congrArg String.data hc
    rw [String.data_append] at h2
    simpa using h2
  simpa using (List.append_eq_nil.mp hd).1

theorem singleton_isSuffixOf_iff (c : Char) (l : List Char) :
    ([c].isSuffixOf l = true) ↔ l.getLast? = some c := by
  rw [List.isSuffixOf_iff_suffix]
  constructor
  · rintro ⟨t, rfl⟩
    exact List.getLast?_concat t
  · intro h
    induction l using List.reverseRecOn with
    | nil => simp at h
    | append_singleton l a ih =>
        rw [List.getLast?_concat] at h
        obtain rfl : a = c := by injection h
        exact ⟨l, rfl⟩

theorem pyEndsWith_eq_getLast (s : String) (c : Char) (suf : String)
    (hsuf : suf.data = [c]) : (pyEndsWith s suf = true) ↔ s.data.getLast? = some c := by
  rw [pyEndsWith, hsuf, singleton_isSuffixOf_iff]

theorem pyEndsWith_last_eq (s : String) (a b : Char) (sufa sufb : String)
    (ha : sufa.data = [a]) (hb : sufb.data = [b])
    (h1 : pyEndsWith s sufa = true) (h2 : pyEndsWith s sufb = true) : a = b := by
  have e1 := (pyEndsWith_eq_getLast s a sufa ha).mp h1
  have e2 := (pyEndsWith_eq_getLast s b sufb hb).mp h2
  rw [e1] at e2
  exact Option.some.inj e2

theorem pyContains_of_pyEndsWith (s : String) (c : Char) (suf : String)
    (hsuf : suf.data = [c]) (h : pyEndsWith s suf = true) : pyContains s c = true := by
  rw [pyEndsWith, hsuf, List.isSuffixOf_iff_suffix] at h
  obtain ⟨t, ht⟩ := h
  have hm : c ∈ s.data := by
    rw [← ht]
    simp
  simpa [pyContains] using hm

/-! Helper lemmas: the dict model. -/

theorem dictKeys_dictInsert (d : GatheredInfo) (k : String) (v : ExtractData) :
    dictKeys (dictInsert d k v) =
      if (dictKeys d).contains k then dictKeys d else dictKeys d ++ [k] := by
  by_cases h : (dictKeys d).contains k
  · simp only [dictInsert]
    rw [if_pos h, if_pos h]
    simp only [dictKeys, List.map_map]
    apply List.map_congr_left
    intro p hp
    by_cases hpk : p.1 = k <;> simp [hpk]
  · simp only [dictInsert]
    rw [if_neg h, if_neg h]
    simp [dictKeys]

theorem mem_dictKeys_dictInsert (d : GatheredInfo) (k a : String) (v : ExtractData) :
    a ∈ dictKeys (dictInsert d k v) ↔ a ∈ dictKeys d ∨ a = k := by
  rw [dictKeys_dictInsert]
  by_cases h : (dictKeys d).contains k
  · rw [if_pos h]
    simp only [List.contains_eq_any_beq, List.any_eq_true, beq_iff_eq] at h
    obtain ⟨x, hx, rfl⟩ := h
    constructor
    · exact Or.inl
    · rintro (ha | rfl)
      · exact ha
      · exact hx
  · rw [if_neg h]
    simp

theorem nodup_dictKeys_dictInsert (d : GatheredInfo) (k : String) (v : ExtractData)
    (h : (dictKeys d).Nodup) : (dictKeys (dictInsert d k v)).Nodup := by
  rw [dictKeys_dictInsert]
  by_cases hk : (dictKeys d).contains k
  · rwa [if_pos hk]
  · rw [if_neg hk]
    have hnm : k ∉ dictKeys d := by
      intro hm
      exact hk (by simpa using hm)
    simp [List.nodup_append, h, hnm]

theorem lookup_map_update_ne (d : GatheredInfo) (k a : String) (v : ExtractData)
    (h : a ≠ k) :
    List.lookup a (d.map fun p => if p.1 = k then (k, v) else p) = List.lookup a d := by
  induction d with
  | nil => rfl
  | cons p d ih =>
      obtain ⟨pk, pv⟩ := p
      by_cases hpk : pk = k
      · subst hpk
        have hak : (a == pk) = false := by simpa using h
        simp [List.lookup_cons, hak, ih]
      · by_cases hap : a = pk
        · subst hap
          simp [List.lookup_cons, hpk]
        · have hak : (a == pk) = false := by simpa using hap
          simp [List.lookup_cons, hpk, hak, ih]

theorem lookup_append_singleton_ne (d : GatheredInfo) (k a : String) (v : ExtractData)
    (h : a ≠ k) : List.lookup a (d ++ [(k, v)]) = List.lookup a d := by
  induction d with
  | nil =>
      have hak : (a == k) = false := by simpa using h
      simp [List.lookup_cons, hak, List.lookup]
  | cons p d ih =>
      obtain ⟨pk, pv⟩ := p
      by_cases hap : a = pk
      · subst hap
        simp [List.lookup_cons]
      · have hak : (a == pk) = false := by simpa using hap
        simp [List.lookup_cons, hak, ih]

theorem dictLookup_dictInsert_ne (d : GatheredInfo) (k a : String) (v : ExtractData)
    (h : a ≠ k) : dictLookup (dictInsert d k v) a = dictLookup d a := by
  unfold dictLookup dictInsert
  by_cases hc : (dictKeys d).contains k
  · rw [if_pos hc]
    exact lookup_map_update_ne d k a v h
  · rw [if_neg hc]
    exact lookup_append_singleton_ne d k a v h

/-! Helper lemmas: the merge loop. -/

theorem mergeExtracted_nil (all_issue_fields : List String) (g : GatheredInfo) :
    mergeExtracted all_issue_fields g [] = g := rfl

theorem mergeExtracted_cons (all_issue_fields : List String) (g : GatheredInfo)
    (p : String × ExtractData) (ext : List (String × ExtractData)) :
    mergeExtracted all_issue_fields g (p :: ext) =
      mergeExtracted all_issue_fields
        (if acceptedProposal all_issue_fields p then dictInsert g p.1 p.2 else g) ext := rfl

theorem dictKeys_subset_mergeExtracted (all_issue_fields : List String)
    (ext : List (String × ExtractData)) :
    ∀ g : GatheredInfo, dictKeys g ⊆ dictKeys (mergeExtracted all_issue_fields g ext) := by
  induction ext with
  | nil =>
      intro g
      rw [mergeExtracted_nil]
      exact fun a ha => ha
  | cons p ext ih =>
      intro g a ha
      rw [mergeExtracted_cons]
      apply ih
      by_cases hp : acceptedProposal all_issue_fields p
      · rw [if_pos hp, mem_dictKeys_dictInsert]
        exact Or.inl ha
      · rwa [if_neg hp]

theorem mem_dictKeys_mergeExtracted (all_issue_fields : List String)
    (ext : List (String × ExtractData)) :
    ∀ (g : GatheredInfo) (a : String),
      a ∈ dictKeys (mergeExtracted all_issue_fields g ext) ↔
        a ∈ dictKeys g ∨ ∃ p ∈ ext, p.1 = a ∧ acceptedProposal all_issue_fields p := by
  induction ext with
  | nil =>
      intro g a
      simp [mergeExtracted_nil]
  | cons p ext ih =>
      intro g a
      rw [mergeExtracted_cons, ih]
      by_cases hp : acceptedProposal all_issue_fields p
      · rw [if_pos hp, mem_dictKeys_dictInsert]
        simp only [List.mem_cons]
        constructor
        · rintro ((ha | rfl) | ⟨q, hq, rfl, hacc⟩)
          · exact Or.inl ha
          · exact Or.inr ⟨p, Or.inl rfl, rfl, hp⟩
          · exact Or.inr ⟨q, Or.inr hq, rfl, hacc⟩
        · rintro (ha | ⟨q, (rfl | hq), rfl, hacc⟩)
          · exact Or.inl (Or.inl ha)
          · exact Or.inl (Or.inr rfl)
          · exact Or.inr ⟨q, hq, rfl, hacc⟩
      · rw [if_neg hp]
        simp only [List.mem_cons]
        constructor
        · rintro (ha | ⟨q, hq, rfl, hacc⟩)
          · exact Or.inl ha
          · exact Or.inr ⟨q, Or.inr hq, rfl, hacc⟩
        · rintro (ha | ⟨q, (rfl | hq), rfl, hacc⟩)
          · exact Or.inl ha
          · exact absurd hacc hp
          · exact Or.inr ⟨q, hq, rfl, hacc⟩

theorem nodup_dictKeys_mergeExtracted (all_issue_fields : List String)
    (ext : List (String × ExtractData)) :
    ∀ g : GatheredInfo, (dictKeys g).Nodup →
      (dictKeys (mergeExtracted all_issue_fields g ext)).Nodup := by
  induction ext with
  | nil =>
      intro g h
      rwa [mergeExtracted_nil]
  | cons p ext ih =>
      intro g h
      rw [mergeExtracted_cons]
      apply ih
      by_cases hp : acceptedProposal all_issue_fields p
      · rw [if_pos hp]
        exact nodup_dictKeys_dictInsert _ _ _ h
      · rwa [if_neg hp]

theorem dictLookup_mergeExtracted_of_rejected (all_issue_fields : List String)
    (ext : List (String × ExtractData)) :
    ∀ (g : GatheredInfo) (a : String),
      (∀ p ∈ ext, p.1 = a → ¬ acceptedProposal all_issue_fields p) →
      dictLookup (mergeExtracted all_issue_fields g ext) a = dictLookup g a := by
  induction ext with
  | nil =>
      intro g a h
      rfl
  | cons p ext ih =>
      intro g a h
      rw [mergeExtracted_cons, ih _ _ (fun q hq => h q (List.mem_cons_of_mem _ hq))]
      by_cases hp : acceptedProposal all_issue_fields p
      · have hpa : p.1 ≠ a := fun he => h p (List.mem_cons_self _ _) he hp
        rw [if_pos hp]
        exact dictLookup_dictInsert_ne _ _ _ _ (Ne.symm hpa)
      · rw [if_neg hp]

/-! Helper lemmas: branch behaviour of the analyzer and the fallbacks. -/

theorem analyze_and_extract_some (issues : List Issue) (gathered_info : GatheredInfo)
    (existing : List String) (hist : List ChatMsg) (r : ExtractionResult)
    (h : ¬ (hist.filter (fun m => m.role == "user")).length < 2) :
    analyze_and_extract issues gathered_info existing hist (some r) =
      analyzeSuccess issues gathered_info existing r := by
  simp [analyze_and_extract, h]

theorem analyze_and_extract_none_parts (issues : List Issue) (gathered_info : GatheredInfo)
    (existing : List String) (hist : List ChatMsg) :
    (analyze_and_extract issues gathered_info existing hist none).is_complete = false ∧
    (analyze_and_extract issues gathered_info existing hist none).gathered_info = gathered_info ∧
    (analyze_and_extract issues gathered_info existing hist none).cannot_answer_fields = [] := by
  by_cases h : (hist.filter (fun m => m.role == "user")).length < 2 <;>
    simp [analyze_and_extract, h]

theorem analyzeSuccess_gathered_info (issues : List Issue) (gathered_info : GatheredInfo)
    (existing : List String) (r : ExtractionResult) :
    (analyzeSuccess issues gathered_info existing r).gathered_info =
      mergeExtracted (issues.map Issue.field) gathered_info r.extracted := rfl

theorem analyzeSuccess_cannot_answer (issues : List Issue) (gathered_info : GatheredInfo)
    (existing : List String) (r : ExtractionResult) :
    (analyzeSuccess issues gathered_info existing r).cannot_answer_fields =
      r.cannot_answer.filter (fun f => (issues.map Issue.field).contains f) := rfl

theorem analyzeSuccess_is_complete (issues : List Issue) (gathered_info : GatheredInfo)
    (existing : List String) (r : ExtractionResult) :
    (analyzeSuccess issues gathered_info existing r).is_complete =
      decide ((issues.map Issue.field).length ≤
        ((dictKeys (mergeExtracted (issues.map Issue.field) gathered_info r.extracted)).filter
            (fun f => (issues.map Issue.field).contains f)).length +
          (existing ++ r.cannot_answer.filter
              (fun f => (issues.map Issue.field).contains f)).dedup.length) := rfl

theorem continuationFallback_ne_empty (still_needed : List Issue) :
    continuationFallback still_needed ≠ "" := by
  apply string_append_ne_empty_left
  decide

theorem closingFallback_ne_empty (founder_name company_name : String) :
    closingFallback founder_name company_name ≠ "" := by
  apply string_append_ne_empty_left
  apply string_append_ne_empty_left
  apply string_append_ne_empty_left
  apply string_append_ne_empty_left
  decide

theorem chat_with_founder_message (d : InterviewData) (user_message : String)
    (chat_history : List ChatMsg) (genResponse : Option String)
    (extraction : Option ExtractionResult) :
    (chat_with_founder d user_message chat_history genResponse extraction).message =
      (match genResponse with
       | none =>
           if still_needed_of d.issues d.gathered_info d.cannot_answer_fields = [] then
             closingFallback d.founder_name d.company_name
           else continuationFallback (still_needed_of d.issues d.gathered_info d.cannot_answer_fields)
       | some raw =>
           if pyStrip raw = "" then
             (if still_needed_of d.issues d.gathered_info d.cannot_answer_fields = [] then
               closingFallback d.founder_name d.company_name
             else continuationFallback (still_needed_of d.issues d.gathered_info d.cannot_answer_fields))
           else if still_needed_of d.issues d.gathered_info d.cannot_answer_fields = [] then
             pyStrip raw
           else enforceQuestion (pyStrip raw)) := by
  have hlen : (decide ((still_needed_of d.issues d.gathered_info d.cannot_answer_fields).length ≤ 0)
      = true) ↔ still_needed_of d.issues d.gathered_info d.cannot_answer_fields = [] := by
    simp [Nat.le_zero, List.length_eq_zero]
  by_cases hempty : still_needed_of d.issues d.gathered_info d.cannot_answer_fields = []
  · have hdec : decide ((still_needed_of d.issues d.gathered_info d.cannot_answer_fields).length ≤ 0)
        = true := hlen.mpr hempty
    cases genResponse with
    | none => simp [chat_with_founder, hdec, hempty]
    | some raw =>
        by_cases hs : pyStrip raw = "" <;> simp [chat_with_founder, hdec, hempty, hs]
  · have hdec : decide ((still_needed_of d.issues d.gathered_info d.cannot_answer_fields).length ≤ 0)
        = false := by
      rw [decide_eq_false_iff_not]
      intro hle
      exact hempty (hlen.mp (by simpa using hle))
    cases genResponse with
    | none => simp [chat_with_founder, hdec, hempty]
    | some raw =>
        by_cases hs : pyStrip raw = "" <;> simp [chat_with_founder, hdec, hempty, hs]

theorem chat_with_founder_state (d : InterviewData) (user_message : String)
    (chat_history : List ChatMsg) (genResponse : Option String)
    (extraction : Option ExtractionResult) :
    (chat_with_founder d user_message chat_history genResponse extraction).is_complete =
      (analyze_and_extract d.issues d.gathered_info d.cannot_answer_fields
        (chat_history ++
          [{ role := "user", message := user_message },
           { role := "assistant",
             message := (chat_with_founder d user_message chat_history genResponse
               extraction).message }]) extraction).is_complete ∧
    (chat_with_founder d user_message chat_history genResponse extraction).gathered_info =
      (analyze_and_extract d.issues d.gathered_info d.cannot_answer_fields
        (chat_history ++
          [{ role := "user", message := user_message },
           { role := "assistant",
             message := (chat_with_founder d user_message chat_history genResponse
               extraction).message }]) extraction).gathered_info ∧
    (chat_with_founder d user_message chat_history genResponse extraction).cannot_answer_fields =
      (analyze_and_extract d.issues d.gathered_info d.cannot_answer_fields
        (chat_history ++
          [{ role := "user", message := user_message },
           { role := "assistant",
             message := (chat_with_founder d user_message chat_history genResponse
               extraction).message }]) extraction).cannot_answer_fields := by
  refine ⟨rfl, rfl, rfl⟩

theorem chat_with_founder_message_none (d : InterviewData) (user_message : String)
    (chat_history : List ChatMsg) (extraction : Option ExtractionResult) :
    (chat_with_founder d user_message chat_history none extraction).message =
      if still_needed_of d.issues d.gathered_info d.cannot_answer_fields = [] then
        closingFallback d.founder_name d.company_name
      else
        continuationFallback (still_needed_of d.issues d.gathered_info d.cannot_answer_fields) :=
  chat_with_founder_message d user_message chat_history none extraction

theorem chat_with_founder_message_some (d : InterviewData) (user_message : String)
    (chat_history : List ChatMsg) (raw : String) (extraction : Option ExtractionResult) :
    (chat_with_founder d user_message chat_history (some raw) extraction).message =
      if pyStrip raw = "" then
        (if still_needed_of d.issues d.gathered_info d.cannot_answer_fields = [] then
          closingFallback d.founder_name d.company_name
        else
          continuationFallback (still_needed_of d.issues d.gathered_info d.cannot_answer_fields))
      else if still_needed_of d.issues d.gathered_info d.cannot_answer_fields = [] then
        pyStrip raw
      else enforceQuestion (pyStrip raw) :=
  chat_with_founder_message d user_message chat_history (some raw) extraction

theorem pyEndsWith_qmark_append (pre q : String) (hpre : pyEndsWith pre "?" = false) :
    pyEndsWith (pre ++ q) "?" = pyEndsWith q "?" := by
  by_cases hq : q.data = []
  · have hq0 : q = "" := String.ext (by simpa using hq)
    subst hq0
    have happ : pre ++ "" = pre := by
      apply String.ext
      rw [String.data_append]
      simp
    rw [happ, hpre]
    decide
  · have h1 := pyEndsWith_eq_getLast (pre ++ q) '?' "?" rfl
    have h2 := pyEndsWith_eq_getLast q '?' "?" rfl
    have hd : (pre ++ q).data.getLast? = q.data.getLast? := by
      rw [String.data_append]
      exact List.getLast?_append_of_ne_nil _ hq
    cases hb : pyEndsWith q "?" with
    | true =>
        apply h1.mpr
        rw [hd]
        exact h2.mp hb
    | false =>
        cases hb2 : pyEndsWith (pre ++ q) "?" with
        | false => rfl
        | true =>
            have hg := h1.mp hb2
            rw [hd] at hg
            rw [h2.mpr hg] at hb
            simp at hb

theorem contains_filter_of_pred (l : List String) (p : String → Bool) (a : String)
    (hp : p a = true) : (l.filter p).contains a = l.contains a := by
  simp [List.mem_filter, hp]

/-! Claim theorems. -/

/-- C2: when both reasoning-service calls fail for a turn, `chat_with_founder`
still returns a non-empty deterministic fallback reply, leaves `gathered_info`
exactly as it was, reports no new cannot-answer fields, and forces
`is_complete` to false; no error is surfaced (the operation is total). -/
theorem C2_double_failure_is_noop (d : InterviewData) (user_message : String)
    (chat_history : List ChatMsg) :
    (chat_with_founder d user_message chat_history none none).message ≠ "" ∧
    (chat_with_founder d user_message chat_history none none).gathered_info =
      d.gathered_info ∧
    (chat_with_founder d user_message chat_history none none).cannot_answer_fields = [] ∧
    (chat_with_founder d user_message chat_history none none).is_complete = false := by
  obtain ⟨hstc, hstg, hstca⟩ :=
    chat_with_founder_state d user_message chat_history none none
  obtain ⟨hc, hg, hca⟩ := analyze_and_extract_none_parts d.issues d.gathered_info
    d.cannot_answer_fields
    (chat_history ++
      [{ role := "user", message := user_message },
       { role := "assistant",
         message := (chat_with_founder d user_message chat_history none none).message }])
  refine ⟨?_, ?_, ?_, ?_⟩
  · rw [chat_with_founder_message_none]
    by_cases hemp : still_needed_of d.issues d.gathered_info d.cannot_answer_fields = []
    · rw [if_pos hemp]
      exact closingFallback_ne_empty _ _
    · rw [if_neg hemp]
      exact continuationFallback_ne_empty _
  · rw [hstg]
    exact hg
  · rw [hstca]
    exact hca
  · rw [hstc]
    exact hc

/-- C4: a transcript with fewer than two participant messages makes
`analyze_and_extract` skip extraction: the unmodified incoming `gathered_info`
is returned with `is_complete = false` and an empty new cannot-answer list,
whatever the reasoning-service outcome would have been (the service plays no
role in the result). -/
theorem C4_first_turn_skips_extraction (issues : List Issue) (gathered_info : GatheredInfo)
    (existing : List String) (hist : List ChatMsg) (extraction : Option ExtractionResult)
    (h : (hist.filter (fun m => m.role == "user")).length < 2) :
    analyze_and_extract issues gathered_info existing hist extraction =
      { is_complete := false
        gathered_info := gathered_info
        still_pending := issues.map Issue.field
        cannot_answer_fields := [] } := by
  simp [analyze_and_extract, h]

/-- Witness for C4: a one-participant-message transcript together with a
service outcome that would have extracted `team_size`; the turn ignores it. -/
theorem C4_first_turn_skips_extraction_witness :
    analyze_and_extract exIssues exGatheredRevenue ["team_size"] exShortHistory
        (some exTeamResult) =
      { is_complete := false
        gathered_info := exGatheredRevenue
        still_pending := ["revenue", "team_size"]
        cannot_answer_fields := [] } :=
  C4_first_turn_skips_extraction exIssues exGatheredRevenue ["team_size"] exShortHistory
    (some exTeamResult) (by decide)

/-- C6: the candidate next-3-questions list consists of the questions of the
first at most three catalog issues, in catalog order, whose fields are in
neither `gathered_info` nor `cannot_answer_fields`; and no `still_needed`
candidate carries a field from `cannot_answer_fields`, so a cannot-answer
field never reappears in the candidate list of a turn carrying it. -/
theorem C6_next_questions_policy (issues : List Issue) (gathered_info : GatheredInfo)
    (cannot_answer_fields : List String) :
    next_questions_of issues gathered_info cannot_answer_fields =
      ((issues.filter (fun i =>
          !(dictKeys gathered_info).contains i.field &&
          !cannot_answer_fields.contains i.field)).take 3).map Issue.question ∧
    (still_needed_of issues gathered_info cannot_answer_fields).all
      (fun i => !cannot_answer_fields.contains i.field) = true := by
  constructor
  · simp only [next_questions_of, still_needed_of]
    have hfilter : issues.filter (fun i =>
          !((dictKeys gathered_info).filter
              (fun f => (issues.map Issue.field).contains f)).contains i.field &&
          !cannot_answer_fields.contains i.field) =
        issues.filter (fun i =>
          !(dictKeys gathered_info).contains i.field &&
          !cannot_answer_fields.contains i.field) := by
      apply List.filter_congr
      intro i hi
      have hfield : ((issues.map Issue.field).contains i.field) = true := by
        simp only [List.contains_eq_any_beq, List.any_eq_true, beq_iff_eq]
        exact ⟨i.field, List.mem_map.mpr ⟨i, hi, rfl⟩, rfl⟩
      rw [contains_filter_of_pred _ _ _ hfield]
    rw [hfilter]
  · rw [List.all_eq_true]
    intro i hi
    simp only [still_needed_of, List.mem_filter, Bool.and_eq_true] at hi
    exact hi.2.2

/-- C7: the continuation-mode post-processing leaves a reply ending in a
question mark unchanged; replaces a trailing period by a question mark when no
question mark occurs anywhere in the text; leaves a reply ending in a period
unchanged when a question mark occurs elsewhere in it; leaves a reply ending
in an exclamation mark unchanged; and appends a question mark when the reply
ends in none of the three punctuation marks. -/
theorem C7_question_mark_rule (s : String) :
    (pyEndsWith s "?" = true → enforceQuestion s = s) ∧
    (pyEndsWith s "." = true → pyContains s '?' = false →
        enforceQuestion s = pyDropLast s ++ "?") ∧
    (pyEndsWith s "." = true → pyContains s '?' = true → enforceQuestion s = s) ∧
    (pyEndsWith s "!" = true → enforceQuestion s = s) ∧
    (pyEndsWith s "?" = false → pyEndsWith s "!" = false → pyEndsWith s "." = false →
        enforceQuestion s = s ++ "?") := by
  refine ⟨?_, ?_, ?_, ?_, ?_⟩
  · intro h
    simp [enforceQuestion, h]
  · intro hdot hq
    have hqm : pyEndsWith s "?" = false := by
      cases hq2 : pyEndsWith s "?"
      · rfl
      · rw [pyContains_of_pyEndsWith s '?' "?" rfl hq2] at hq
        cases hq
    simp [enforceQuestion, hdot, hq, hqm]
  · intro hdot hq
    have hqm : pyEndsWith s "?" = false := by
      cases hq2 : pyEndsWith s "?"
      · rfl
      · exact absurd (pyEndsWith_last_eq s '.' '?' "." "?" rfl rfl hdot hq2) (by decide)
    simp [enforceQuestion, hdot, hq, hqm]
  · intro hbang
    have hqm : pyEndsWith s "?" = false := by
      cases hq2 : pyEndsWith s "?"
      · rfl
      · exact absurd (pyEndsWith_last_eq s '!' '?' "!" "?" rfl rfl hbang hq2) (by decide)
    have hdot : pyEndsWith s "." = false := by
      cases hq2 : pyEndsWith s "."
      · rfl
      · exact absurd (pyEndsWith_last_eq s '!' '.' "!" "." rfl rfl hbang hq2) (by decide)
    simp [enforceQuestion, hbang, hqm, hdot]
  · intro h1 h2 h3
    simp [enforceQuestion, h1, h2, h3]

/-- Witness for C7: a reply ending in a period with no question mark gets the
period replaced, and a reply with no terminal punctuation gets a question mark
appended. -/
theorem C7_question_mark_rule_witness :
    enforceQuestion "We grew fast last month." = "We grew fast last month?" ∧
    enforceQuestion "Tell me more" = "Tell me more?" := by
  constructor
  · have h := (C7_question_mark_rule "We grew fast last month.").2.1 (by decide) (by decide)
    rw [h]
    decide
  · have h := (C7_question_mark_rule "Tell me more").2.2.2.2 (by decide) (by decide) (by decide)
    rw [h]
    decide

/-- C9: on a successful extraction turn the returned cannot-answer list is
exactly this turn's declared cannot-answer fields filtered to exact catalog
matches; each returned element comes from this turn's structured result, and
the list does not depend on the pre-existing persisted cannot-answer set, so
it is an addition for the caller to union in, never a reset or replacement. -/
theorem C9_cannot_answer_additive (issues : List Issue) (gathered_info : GatheredInfo)
    (existing : List String) (hist : List ChatMsg) (r : ExtractionResult)
    (h : ¬ (hist.filter (fun m => m.role == "user")).length < 2) :
    (analyze_and_extract issues gathered_info existing hist (some r)).cannot_answer_fields =
      r.cannot_answer.filter (fun f => (issues.map Issue.field).contains f) ∧
    (∀ f ∈ (analyze_and_extract issues gathered_info existing hist
        (some r)).cannot_answer_fields,
      f ∈ r.cannot_answer ∧ f ∈ issues.map Issue.field) ∧
    ∀ existing2 : List String,
      (analyze_and_extract issues gathered_info existing2 hist (some r)).cannot_answer_fields =
        (analyze_and_extract issues gathered_info existing hist (some r)).cannot_answer_fields := by
  rw [analyze_and_extract_some _ _ _ _ _ h, analyzeSuccess_cannot_answer]
  refine ⟨rfl, ?_, ?_⟩
  · intro f hf
    rw [List.mem_filter] at hf
    refine ⟨hf.1, ?_⟩
    have := hf.2
    simpa using this
  · intro existing2
    rw [analyze_and_extract_some _ _ _ _ _ h, analyzeSuccess_cannot_answer]

/-- Witness for C9: the non-catalog declaration `funding_stage` is dropped and
only this turn's catalog match `team_size` is returned, even though a
different field was already in the persisted cannot-answer set. -/
theorem C9_cannot_answer_additive_witness :
    (analyze_and_extract exIssues [] ["revenue"] exHistory
        (some exCannotResult)).cannot_answer_fields = ["team_size"] := by
  have h := (C9_cannot_answer_additive exIssues [] ["revenue"] exHistory exCannotResult
    (by decide)).1
  rw [h]
  decide

/-- C5: a proposed extraction is accepted into the merged `gathered_info` only
if its field exactly matches a catalog field and its confidence is high or
medium; when every proposal for a field is low-confidence or names a field
outside the catalog, the merged dict binds that field exactly as the input
did, so the dropped proposals never appear in `gathered_info` afterward. -/
theorem C5_confidence_gate (issues : List Issue) (gathered_info : GatheredInfo)
    (existing : List String) (hist : List ChatMsg) (r : ExtractionResult) (f : String)
    (hmsgs : ¬ (hist.filter (fun m => m.role == "user")).length < 2) :
    ((∀ p ∈ r.extracted, p.1 = f →
        p.2.confidence = "low" ∨ f ∉ issues.map Issue.field) →
      dictLookup (analyze_and_extract issues gathered_info existing hist
          (some r)).gathered_info f =
        dictLookup gathered_info f) ∧
    (f ∈ dictKeys (analyze_and_extract issues gathered_info existing hist
        (some r)).gathered_info →
      f ∈ dictKeys gathered_info ∨
        ∃ p ∈ r.extracted, p.1 = f ∧ f ∈ issues.map Issue.field ∧
          (p.2.confidence = "high" ∨ p.2.confidence = "medium")) := by
  rw [analyze_and_extract_some _ _ _ _ _ hmsgs, analyzeSuccess_gathered_info]
  constructor
  · intro hrej
    apply dictLookup_mergeExtracted_of_rejected
    intro p hp hpf hacc
    unfold acceptedProposal at hacc
    rcases hrej p hp hpf with hlow | hnot
    · rcases hacc.2 with hconf | hconf <;>
        · rw [hlow] at hconf
          exact absurd hconf (by decide)
    · apply hnot
      have hc := hacc.1
      rw [hpf] at hc
      simpa using hc
  · intro hf
    rw [mem_dictKeys_mergeExtracted] at hf
    rcases hf with hf | ⟨p, hp, hpf, hacc⟩
    · exact Or.inl hf
    · unfold acceptedProposal at hacc
      refine Or.inr ⟨p, hp, hpf, ?_, hacc.2⟩
      have hc := hacc.1
      rw [hpf] at hc
      simpa using hc

/-- Witness for C5: with one low-confidence catalog proposal and one
high-confidence non-catalog proposal, neither `team_size` nor `valuation`
gains a binding. -/
theorem C5_confidence_gate_witness :
    dictLookup (analyze_and_extract exIssues exGatheredRevenue [] exHistory
        (some exRejectableResult)).gathered_info "team_size" = none := by
  have h := (C5_confidence_gate exIssues exGatheredRevenue [] exHistory exRejectableResult
    "team_size" (by decide)).1 (by decide)
  rw [h]
  decide

/-- C8: with a successful non-empty generated reply, an empty `still_needed`
at the start of the turn selects closing mode, in which the stripped reply is
returned with no question-mark enforcement, while a non-empty `still_needed`
selects continuation mode, in which the enforcement is applied to the stripped
reply. -/
theorem C8_closing_vs_continuation (d : InterviewData) (user_message : String)
    (chat_history : List ChatMsg) (raw : String) (extraction : Option ExtractionResult)
    (hne : pyStrip raw ≠ "") :
    (still_needed_of d.issues d.gathered_info d.cannot_answer_fields = [] →
        (chat_with_founder d user_message chat_history (some raw) extraction).message =
          pyStrip raw) ∧
    (still_needed_of d.issues d.gathered_info d.cannot_answer_fields ≠ [] →
        (chat_with_founder d user_message chat_history (some raw) extraction).message =
          enforceQuestion (pyStrip raw)) := by
  rw [chat_with_founder_message_some]
  constructor
  · intro hemp
    rw [if_neg hne, if_pos hemp]
  · intro hnemp
    rw [if_neg hne, if_neg hnemp]

/-- Witness for C8: a completed catalog (closing mode) returns the stripped
service reply verbatim, here one that does not end in a question mark. -/
theorem C8_closing_vs_continuation_witness :
    (chat_with_founder exDataDone "ok" exHistory (some " Great chat. ") none).message =
      pyStrip " Great chat. " :=
  (C8_closing_vs_continuation exDataDone "ok" exHistory " Great chat. " none
    (by decide)).1 (by decide)

/-- C10: when reply generation fails in continuation mode, the reply is the
fixed acknowledgment concatenated verbatim with the highest-priority
still-needed question, with no question-mark post-processing: the reply ends
in a question mark exactly when the question text does. -/
theorem C10_continuation_fallback_verbatim (d : InterviewData) (user_message : String)
    (chat_history : List ChatMsg) (extraction : Option ExtractionResult)
    (q : Issue) (rest : List Issue)
    (h : still_needed_of d.issues d.gathered_info d.cannot_answer_fields = q :: rest) :
    (chat_with_founder d user_message chat_history none extraction).message =
      "Thanks for sharing! " ++ q.question ∧
    pyEndsWith (chat_with_founder d user_message chat_history none extraction).message "?" =
      pyEndsWith q.question "?" := by
  have hmsg : (chat_with_founder d user_message chat_history none extraction).message =
      "Thanks for sharing! " ++ q.question := by
    rw [chat_with_founder_message_none, h]
    simp [continuationFallback]
  refine ⟨hmsg, ?_⟩
  rw [hmsg]
  exact pyEndsWith_qmark_append "Thanks for sharing! " q.question (by decide)

/-- Witness for C10: a fresh interview whose top question ends in a question
mark, and a doctored catalog whose top question does not; the fallback reply
mirrors the question's terminal character in both cases. -/
theorem C10_continuation_fallback_verbatim_witness :
    (chat_with_founder exData "hi" [] none none).message =
      "Thanks for sharing! What is your current annual revenue?" := by
  have h := (C10_continuation_fallback_verbatim exData "hi" [] none
    { field := "revenue", question := "What is your current annual revenue?",
      category := "financials", importance := 1, status := "open" }
    [{ field := "team_size", question := "How big is your team?",
       category := "team", importance := 2, status := "open" }] (by decide)).1
  rw [h]
  decide

theorem analyzeSuccess_complete_iff_covered (issues : List Issue) (g : GatheredInfo)
    (existing : List String) (r : ExtractionResult)
    (hnodup : (dictKeys g).Nodup)
    (hexist : ∀ f ∈ existing, f ∈ issues.map Issue.field)
    (hdisj : ∀ f ∈ dictKeys (mergeExtracted (issues.map Issue.field) g r.extracted),
        f ∉ existing ∧ f ∉ r.cannot_answer) :
    ((analyzeSuccess issues g existing r).is_complete = true ↔
      issues.length ≤ specCoveredCount issues
        (mergeExtracted (issues.map Issue.field) g r.extracted)
        (existing ++ r.cannot_answer.filter
          (fun f => (issues.map Issue.field).contains f))) := by
  have hA_nodup : ((dictKeys (mergeExtracted (issues.map Issue.field) g r.extracted)).filter
      (fun f => (issues.map Issue.field).contains f)).Nodup :=
    List.Nodup.filter _ (nodup_dictKeys_mergeExtracted _ _ _ hnodup)
  have hCfilter : (existing ++ r.cannot_answer.filter
        (fun f => (issues.map Issue.field).contains f)).filter
        (fun f => (issues.map Issue.field).contains f) =
      existing ++ r.cannot_answer.filter (fun f => (issues.map Issue.field).contains f) := by
    rw [List.filter_append]
    congr 1
    · apply List.filter_eq_self.mpr
      intro a ha
      simpa using hexist a ha
    · apply List.filter_eq_self.mpr
      intro a ha
      exact (List.mem_filter.mp ha).2
  have hdisjAC : ∀ a ∈ (dictKeys (mergeExtracted (issues.map Issue.field) g
        r.extracted)).filter (fun f => (issues.map Issue.field).contains f),
      a ∉ existing ++ r.cannot_answer.filter
        (fun f => (issues.map Issue.field).contains f) := by
    intro a ha hc
    have haK := (List.mem_filter.mp ha).1
    obtain ⟨h1, h2⟩ := hdisj a haK
    rcases List.mem_append.mp hc with h | h
    · exact h1 h
    · exact h2 (List.mem_filter.mp h).1
  have hdisjF : Disjoint
      ((dictKeys (mergeExtracted (issues.map Issue.field) g r.extracted)).filter
        (fun f => (issues.map Issue.field).contains f)).toFinset
      (existing ++ r.cannot_answer.filter
        (fun f => (issues.map Issue.field).contains f)).toFinset := by
    rw [Finset.disjoint_left]
    intro a haA haC
    exact hdisjAC a (List.mem_toFinset.mp haA) (List.mem_toFinset.mp haC)
  have key : (((dictKeys (mergeExtracted (issues.map Issue.field) g r.extracted)).filter
        (fun f => (issues.map Issue.field).contains f)) ++
        (existing ++ r.cannot_answer.filter
          (fun f => (issues.map Issue.field).contains f))).dedup.length =
      ((dictKeys (mergeExtracted (issues.map Issue.field) g r.extracted)).filter
        (fun f => (issues.map Issue.field).contains f)).length +
      (existing ++ r.cannot_answer.filter
        (fun f => (issues.map Issue.field).contains f)).dedup.length := by
    rw [← List.card_toFinset, ← List.card_toFinset, List.toFinset_append,
      Finset.card_union_of_disjoint hdisjF, List.toFinset_card_of_nodup hA_nodup]
  rw [analyzeSuccess_is_complete]
  simp only [specCoveredCount]
  rw [hCfilter, key, decide_eq_true_eq, List.length_map]

/-- C1 counterexample: catalog {revenue, team_size}, `revenue` both gathered
and in the persisted cannot-answer set, empty extraction result.  Only one of
the two distinct catalog fields is covered by the union of gathered keys and
cannot-answer fields (one fewer than the catalog size), yet the completion
flag comes out true: the code sums the two counts instead of sizing the
distinct union. -/
theorem C1_completion_counterexample :
    (analyze_and_extract exIssues exGatheredRevenue ["revenue"] exHistory
        (some exEmptyResult)).is_complete = true ∧
    specCoveredCount exIssues
        (analyze_and_extract exIssues exGatheredRevenue ["revenue"] exHistory
          (some exEmptyResult)).gathered_info
        (["revenue"] ++
          (analyze_and_extract exIssues exGatheredRevenue ["revenue"] exHistory
            (some exEmptyResult)).cannot_answer_fields) + 1 = exIssues.length := by
  decide

/-- C1 amended: the completion flag decides `coveredCount ≥ N` exactly when
the double-counting the counterexample exploits cannot occur: if the incoming
dict has no duplicate keys, every persisted cannot-answer field is a catalog
field, and no merged gathered key also occurs among the persisted or newly
declared cannot-answer fields, then after a successful extraction the flag is
true iff the number of distinct catalog fields covered by the union of the
gathered keys and the cannot-answer fields (each counted once) reaches the
catalog size; in particular it is false when that count is N minus one. -/
theorem C1_completion_definition (issues : List Issue) (gathered_info : GatheredInfo)
    (existing : List String) (hist : List ChatMsg) (r : ExtractionResult)
    (hmsgs : ¬ (hist.filter (fun m => m.role == "user")).length < 2)
    (hnodup : (dictKeys gathered_info).Nodup)
    (hexist : ∀ f ∈ existing, f ∈ issues.map Issue.field)
    (hdisj : ∀ f ∈ dictKeys (analyze_and_extract issues gathered_info existing hist
        (some r)).gathered_info,
      f ∉ existing ∧ f ∉ r.cannot_answer) :
    ((analyze_and_extract issues gathered_info existing hist (some r)).is_complete = true ↔
      issues.length ≤ specCoveredCount issues
        (analyze_and_extract issues gathered_info existing hist (some r)).gathered_info
        (existing ++
          (analyze_and_extract issues gathered_info existing hist
            (some r)).cannot_answer_fields)) := by
  rw [analyze_and_extract_some _ _ _ _ _ hmsgs] at hdisj ⊢
  rw [analyzeSuccess_gathered_info] at hdisj
  rw [analyzeSuccess_gathered_info, analyzeSuccess_cannot_answer]
  exact analyzeSuccess_complete_iff_covered issues gathered_info existing r hnodup hexist hdisj

/-- Witness for C1: `revenue` gathered, `team_size` declared unanswerable this
turn, sets disjoint; both distinct catalog fields are covered and the flag is
true. -/
theorem C1_completion_definition_witness :
    (analyze_and_extract exIssues exGatheredRevenue [] exHistory
        (some exCannotResult)).is_complete = true :=
  (C1_completion_definition exIssues exGatheredRevenue [] exHistory exCannotResult
    (by decide) (by decide) (by decide) (by decide)).mpr (by decide)

/-- C3 counterexample: `revenue` is already present in `gathered_info` with
its first accepted value, and this turn's structured result re-proposes
`revenue` at high confidence; the merge overwrites the stored value instead of
keeping the first accepted extraction. -/
theorem C3_overwrite_counterexample :
    dictLookup exGatheredRevenue "revenue" =
      some { value := "2M ARR", confidence := "high" } ∧
    dictLookup (analyze_and_extract exIssues exGatheredRevenue [] exHistory
        (some exOverwriteResult)).gathered_info "revenue" =
      some { value := "3M ARR", confidence := "high" } := by
  decide

/-- C3 amended: the merge grows `gathered_info` monotonically: every field
present in the input stays present in the merged output, and the attempted set
(gathered keys together with persisted and newly returned cannot-answer
fields) is a superset of the attempted set before the turn.  A present field's
stored value is unchanged provided the extraction result carries no accepted
(catalog-field, high-or-medium-confidence) proposal for it; an accepted
re-proposal of an already-present field, however, overwrites the value. -/
theorem C3_monotone_growth (issues : List Issue) (gathered_info : GatheredInfo)
    (existing : List String) (hist : List ChatMsg) (r : ExtractionResult)
    (hmsgs : ¬ (hist.filter (fun m => m.role == "user")).length < 2) :
    (∀ f ∈ dictKeys gathered_info,
      f ∈ dictKeys (analyze_and_extract issues gathered_info existing hist
        (some r)).gathered_info) ∧
    (∀ f, (∀ p ∈ r.extracted, p.1 = f → ¬ acceptedProposal (issues.map Issue.field) p) →
      dictLookup (analyze_and_extract issues gathered_info existing hist
          (some r)).gathered_info f = dictLookup gathered_info f) ∧
    (∀ f, f ∈ dictKeys gathered_info ∨ f ∈ existing →
      f ∈ dictKeys (analyze_and_extract issues gathered_info existing hist
          (some r)).gathered_info ∨ f ∈ existing ∨
        f ∈ (analyze_and_extract issues gathered_info existing hist
          (some r)).cannot_answer_fields) := by
  rw [analyze_and_extract_some _ _ _ _ _ hmsgs, analyzeSuccess_gathered_info,
    analyzeSuccess_cannot_answer]
  refine ⟨?_, ?_, ?_⟩
  · intro f hf
    exact dictKeys_subset_mergeExtracted _ _ _ hf
  · intro f hrej
    exact dictLookup_mergeExtracted_of_rejected _ _ _ _ hrej
  · intro f hf
    rcases hf with hf | hf
    · exact Or.inl (dictKeys_subset_mergeExtracted _ _ _ hf)
    · exact Or.inr (Or.inl hf)

/-- Witness for C3: with only rejectable proposals this turn, the stored
`revenue` value survives unchanged. -/
theorem C3_monotone_growth_witness :
    dictLookup (analyze_and_extract exIssues exGatheredRevenue [] exHistory
        (some exRejectableResult)).gathered_info "revenue" =
      dictLookup exGatheredRevenue "revenue" :=
  (C3_monotone_growth exIssues exGatheredRevenue [] exHistory exRejectableResult
    (by decide)).2.1 "revenue" (by decide)
